import Mathlib

/-!
Shallow embedding of the MinPlayer core (src/utils/AudioEngine.ts and the
App component): playlist and selection state, the transport operations
(playTrack, togglePlay, deleteSelectedTracks, the ended handler), the
device adapter's volume clamp, and the keyboard seek handlers.

Asynchronous suspension points (the file read and the play() promise) are
made explicit: `playTrackSync` is the synchronous prefix of `playTrack`
(up to the first await) and `playTrackComplete` is its continuation, with
the outcome of the file read and of play() passed in as booleans.  The
fully sequential run is their composition `playTrack`.  Side effects on
the audio element and the object-URL store are recorded as an event
trace, so that ordering claims (revoke before create, index set before
the file read) can be stated over the trace.
-/

namespace MinPlayer

/-- A playlist entry: `{ path, title }` (artist/cover/duration do not
affect any of the modelled operations). -/
structure Track where
  path : String
  title : String
deriving DecidableEq, Repr

/-- An object URL: its creation id (creation order) and the path of the
file whose bytes it wraps. -/
structure Url where
  id : Nat
  srcPath : String
deriving DecidableEq, Repr

/-- The values a pending (awaited) `playTrack` body has captured in its
closure: the requested index and the track path it will read. -/
structure PendingLoad where
  index : Int
  path : String
deriving DecidableEq, Repr

/-- Observable side effects of the transport code, in program order. -/
inductive Event where
  | setIndex (i : Int)
  | revokeUrl (u : Nat)
  | fsRead (path : String)
  | createUrl (u : Nat) (path : String)
  | loadSrc (u : Nat)
  | setEngineVolume (v : ℚ)
  | playCall
  | pauseCall
  | setPlaying (b : Bool)
  | setError (m : Option String)
  | scheduleClearError (ms : Nat)
  | seekCall (t : ℚ)
deriving DecidableEq, Repr

/-- The App component's state: React state plus the refs that the
callbacks read (`currentObjectUrlRef`) and the audio element's loaded
source. `nextUrlId` numbers object-URL creations.  `selected` models the
JS `Set<number>` as its element list in insertion order; a real `Set`
never holds duplicates, so theorems about it may assume `Nodup`. -/
structure AppState where
  playlist : List Track
  currentIndex : Int
  isPlaying : Bool
  errorMessage : Option String
  selected : List Nat
  currentObjectUrl : Option Url
  engineLoaded : Option Url
  volume : ℚ
  currentTime : ℚ
  nextUrlId : Nat
deriving DecidableEq

/-- `path.toLowerCase()` (JS): lower-case every character. -/
def strToLower (s : String) : String :=
  ⟨s.data.map Char.toLower⟩

/-- `s.endsWith(post)` (JS): `post` is a suffix of `s`. -/
def strEndsWith (s post : String) : Bool :=
  List.isSuffixOf post.data s.data

/-- The supported audio extensions (`validExtensions` in the source). -/
def validExtensions : List String :=
  [".mp3", ".m4a", ".flac", ".wav", ".ogg", ".opus", ".aac", ".wma"]

/-- `isValidAudioFile` from the source:
`validExtensions.some(ext => path.toLowerCase().endsWith(ext))`. -/
def isValidAudioFile (path : String) : Bool :=
  validExtensions.any fun ext => strEndsWith (strToLower path) ext

/-- `currentList[index]` under the bounds guard of `playTrack`. -/
def trackAt (s : AppState) (i : Int) : Track :=
  s.playlist.getD i.toNat ⟨"", ""⟩

/-- `AudioEngine.setVolume`: `Math.max(0, Math.min(1, volume))`. -/
def setVolume (volume : ℚ) : ℚ :=
  max 0 (min 1 volume)

/-- The synchronous prefix of `playTrack(index)`, up to the first await:
bounds check, extension validation (with the "Invalid audio file type"
error path), `setCurrentIndex(index)`, and revocation of the previous
object URL.  Returns the captured closure values of the pending
asynchronous body, or `none` when the body was not entered. -/
def playTrackSync (index : Int) (s : AppState) :
    AppState × Option PendingLoad × List Event :=
  if index < 0 ∨ (s.playlist.length : Int) ≤ index then (s, none, [])
  else
    let track := trackAt s index
    if isValidAudioFile track.path = false then
      ({ s with errorMessage := some "Invalid audio file type" }, none,
        [Event.setError (some "Invalid audio file type"),
         Event.scheduleClearError 3000])
    else
      let s1 := { s with currentIndex := index }
      match s1.currentObjectUrl with
      | some u =>
          ({ s1 with currentObjectUrl := none }, some ⟨index, track.path⟩,
            [Event.setIndex index, Event.revokeUrl u.id])
      | none =>
          (s1, some ⟨index, track.path⟩, [Event.setIndex index])

/-- The asynchronous remainder of `playTrack`: read the file, create the
object URL, store it in the ref, load it into the engine, apply the
(clamped) volume, request play, and update `isPlaying`/`errorMessage`.
`readOk` is the outcome of `readFile`, `playOk` of `audio.play()`; either
failure lands in the catch block ("Failed to load audio file"). -/
def playTrackComplete (p : PendingLoad) (readOk playOk : Bool)
    (s : AppState) : AppState × List Event :=
  if readOk then
    let u : Url := ⟨s.nextUrlId, p.path⟩
    let s1 := { s with currentObjectUrl := some u, engineLoaded := some u,
                       nextUrlId := s.nextUrlId + 1 }
    if playOk then
      ({ s1 with isPlaying := true, errorMessage := none },
       [Event.fsRead p.path, Event.createUrl u.id p.path, Event.loadSrc u.id,
        Event.setEngineVolume (setVolume s.volume), Event.playCall,
        Event.setPlaying true, Event.setError none])
    else
      ({ s1 with isPlaying := false,
                 errorMessage := some "Failed to load audio file" },
       [Event.fsRead p.path, Event.createUrl u.id p.path, Event.loadSrc u.id,
        Event.setEngineVolume (setVolume s.volume), Event.playCall,
        Event.setError (some "Failed to load audio file"),
        Event.scheduleClearError 3000, Event.setPlaying false])
  else
    ({ s with isPlaying := false,
              errorMessage := some "Failed to load audio file" },
     [Event.fsRead p.path,
      Event.setError (some "Failed to load audio file"),
      Event.scheduleClearError 3000, Event.setPlaying false])

/-- A full, uninterleaved run of `playTrack(index)`: the synchronous
prefix followed immediately by its continuation. -/
def playTrack (index : Int) (readOk playOk : Bool) (s : AppState) :
    AppState × List Event :=
  match playTrackSync index s with
  | (s1, none, evs) => (s1, evs)
  | (s1, some p, evs) =>
      let r := playTrackComplete p readOk playOk s1
      (r.1, evs ++ r.2)

/-- `togglePlay`: pause when playing; when idle with a non-empty playlist
start track 0; otherwise resume (`resumeOk` is the play() outcome; the
catch sets `isPlaying` false). -/
def togglePlay (readOk playOk resumeOk : Bool) (s : AppState) :
    AppState × List Event :=
  if s.isPlaying then
    ({ s with isPlaying := false }, [Event.pauseCall, Event.setPlaying false])
  else if s.currentIndex = -1 ∧ 0 < s.playlist.length then
    playTrack 0 readOk playOk s
  else if resumeOk then
    ({ s with isPlaying := true }, [Event.playCall, Event.setPlaying true])
  else
    ({ s with isPlaying := false }, [Event.playCall, Event.setPlaying false])

/-- The `currentIndex` adjustment loop of `deleteSelectedTracks`:
`for (const deletedIdx of indicesToDelete) { if (deletedIdx < prevIdx)
newIdx--; else if (deletedIdx === prevIdx) return -1; } return newIdx`.
Comparisons are against the original `prevIdx`; the equality case returns
`-1` immediately. -/
def adjustLoop (prevIdx : Int) : List Nat → Int → Int
  | [], newIdx => newIdx
  | d :: ds, newIdx =>
      if (d : Int) < prevIdx then adjustLoop prevIdx ds (newIdx - 1)
      else if (d : Int) = prevIdx then -1
      else adjustLoop prevIdx ds newIdx

/-- `deleteSelectedTracks`: no-op on an empty selection; otherwise sort
the selected indices descending (`Array.from(set).sort((a,b) => b-a)`),
`splice` each out of a copy of the playlist, recompute `currentIndex`
with `adjustLoop`, and clear the selection. -/
def deleteSelectedTracks (s : AppState) : AppState :=
  if s.selected.length = 0 then s
  else
    let indicesToDelete := (List.insertionSort (· ≤ ·) s.selected).reverse
    let newPlaylist :=
      indicesToDelete.foldl (fun l idx => l.eraseIdx idx) s.playlist
    let newIndex :=
      if s.currentIndex = -1 then -1
      else adjustLoop s.currentIndex indicesToDelete s.currentIndex
    { s with playlist := newPlaylist, currentIndex := newIndex,
             selected := [] }

/-- The "ended" handler installed via `setHandlers`: read the live
playlist and index (the refs), stop when the index is out of bounds,
advance to `index+1` when it exists, otherwise stop. -/
def onEnded (readOk playOk : Bool) (s : AppState) : AppState × List Event :=
  if s.currentIndex < 0 ∨ (s.playlist.length : Int) ≤ s.currentIndex then
    ({ s with isPlaying := false }, [Event.setPlaying false])
  else
    let nextIndex := s.currentIndex + 1
    if nextIndex < (s.playlist.length : Int) then
      playTrack nextIndex readOk playOk s
    else
      ({ s with isPlaying := false }, [Event.setPlaying false])

/-- Appending dropped tracks: `setPlaylist(prev => [...prev, ...newTracks])`. -/
def appendTracks (newTracks : List Track) (s : AppState) : AppState :=
  { s with playlist := s.playlist ++ newTracks }

/-- The ArrowLeft branch of `handleKeyDown`:
`audioEngine.seek(currentTime - 5); setCurrentTime(t => t - 5)`. -/
def arrowLeftSeek (s : AppState) : AppState × List Event :=
  ({ s with currentTime := s.currentTime - 5 },
   [Event.seekCall (s.currentTime - 5)])

/-- The ArrowRight branch of `handleKeyDown`:
`audioEngine.seek(currentTime + 5); setCurrentTime(t => t + 5)`. -/
def arrowRightSeek (s : AppState) : AppState × List Event :=
  ({ s with currentTime := s.currentTime + 5 },
   [Event.seekCall (s.currentTime + 5)])

/-- Event classifiers used by the ordering claims. -/
def isCreate : Event → Bool
  | Event.createUrl _ _ => true
  | _ => false

def isFsRead : Event → Bool
  | Event.fsRead _ => true
  | _ => false

/-- Modelled from the spec: "removes all tracks whose index is in
SelectionSet" — keep exactly the positions whose (absolute) index
satisfies `p`. -/
def keepIdx {α : Type} (p : Nat → Bool) : List α → List α
  | [] => []
  | a :: t =>
      if p 0 then a :: keepIdx (fun i => p (i + 1)) t
      else keepIdx (fun i => p (i + 1)) t

/-- The spec's state invariant: the current index is `-1` or in bounds,
and a playing state has a current track. -/
def stateInvariant (s : AppState) : Prop :=
  (s.currentIndex = -1 ∨
    0 ≤ s.currentIndex ∧ s.currentIndex < (s.playlist.length : Int)) ∧
  (s.isPlaying = true → s.currentIndex ≠ -1)

instance (s : AppState) : Decidable (stateInvariant s) := by
  unfold stateInvariant
  infer_instance

/-! Concrete fixtures used by the closed theorems below. -/

def trackA : Track := ⟨"a.mp3", "A"⟩

def trackB : Track := ⟨"b.mp3", "B"⟩

def trackC : Track := ⟨"c.mp3", "C"⟩

/-- A state with the given playlist, current index, playing flag,
selection and active object URL; remaining fields at their React initial
values. -/
def mkState (pl : List Track) (ci : Int) (playing : Bool)
    (sel : List Nat) (url : Option Url) : AppState :=
  { playlist := pl, currentIndex := ci, isPlaying := playing,
    errorMessage := none, selected := sel, currentObjectUrl := url,
    engineLoaded := none, volume := 1, currentTime := 0, nextUrlId := 0 }

def c1State : AppState := mkState [trackA] 0 true [0] none

def c2State : AppState := mkState [trackA, trackB] 1 true [1] none

def c3State : AppState := mkState [trackA] (-1) false [] (some ⟨7, "old.mp3"⟩)

def c4OobState : AppState := mkState [trackA] (-1) false [] none

def c4BadExtState : AppState := mkState [⟨"notes.txt", "N"⟩] (-1) false [] none

def c5State : AppState := mkState [trackA, trackB] (-1) false [] none

def c6AdvanceState : AppState := mkState [trackA, trackB, trackC] 0 true [] none

def c6LastState : AppState := mkState [trackA, trackB, trackC] 2 true [] none

def c6OobState : AppState := mkState [trackA] 5 true [] none

def c7State : AppState := mkState [trackA, trackB, trackC] 1 true [0, 2] none

def c10State : AppState := mkState [trackA] 0 true [] none

/-- The superseded-load schedule: `playTrack(0)` runs its synchronous
prefix, then `playTrack(1)` runs its synchronous prefix, then track 1's
load completes, and finally the stale track-0 load completes. -/
def c9StaleRun : AppState :=
  let r0 := playTrackSync 0 (mkState [trackA, trackB] (-1) false [] none)
  let r1 := playTrackSync 1 r0.1
  let p0 := r0.2.1.getD ⟨0, ""⟩
  let p1 := r1.2.1.getD ⟨0, ""⟩
  let s3 := (playTrackComplete p1 true true r1.1).1
  (playTrackComplete p0 true true s3).1

/-! Helper lemmas: the descending-splice loop of `deleteSelectedTracks`
computes an index filter. -/

theorem keepIdx_congr {α : Type} :
    ∀ (l : List α) (p q : Nat → Bool), (∀ j, p j = q j) →
      keepIdx p l = keepIdx q l
  | [], _, _, _ => rfl
  | a :: t, p, q, h => by
      have ht := keepIdx_congr t (fun i => p (i + 1)) (fun i => q (i + 1))
        (fun j => h (j + 1))
      simp only [keepIdx, h 0, ht]

theorem keepIdx_of_all_true {α : Type} :
    ∀ (l : List α) (p : Nat → Bool), (∀ j, p j = true) → keepIdx p l = l
  | [], _, _ => rfl
  | a :: t, p, h => by
      have ht := keepIdx_of_all_true t (fun i => p (i + 1))
        (fun j => h (j + 1))
      simp only [keepIdx, h 0, if_true, ht]

theorem keepIdx_eraseIdx {α : Type} :
    ∀ (l : List α) (d : Nat) (p : Nat → Bool), (∀ j, d ≤ j → p j = true) →
      keepIdx (fun i => decide (i ≠ d) && p i) l = keepIdx p (l.eraseIdx d)
  | [], d, p, _ => by simp [keepIdx, List.eraseIdx]
  | a :: t, 0, p, h => by
      have h0 : ∀ j, p j = true := fun j => h j (Nat.zero_le j)
      have hl2 : keepIdx (fun i => p (i + 1)) t = t :=
        keepIdx_of_all_true t _ (fun j => h0 (j + 1))
      have hr : keepIdx p t = t := keepIdx_of_all_true t p h0
      simp [keepIdx, List.eraseIdx, hl2, hr]
  | a :: t, d + 1, p, h => by
      have hIH := keepIdx_eraseIdx t d (fun i => p (i + 1))
        (fun j hj => h (j + 1) (Nat.succ_le_succ hj))
      have hIH2 : keepIdx (fun i => !decide (i = d) && p (i + 1)) t
          = keepIdx (fun i => p (i + 1)) (t.eraseIdx d) := by
        rw [← hIH]
        exact keepIdx_congr t _ _ (fun j => by simp)
      by_cases hp : p 0 = true
      · simp [keepIdx, List.eraseIdx, hp, hIH2]
      · simp [keepIdx, List.eraseIdx, hp, hIH2]

theorem foldl_eraseIdx_keepIdx {α : Type} :
    ∀ (ds : List Nat), ds.Pairwise (· > ·) →
      ∀ l : List α,
        ds.foldl (fun acc d => acc.eraseIdx d) l
          = keepIdx (fun i => decide (i ∉ ds)) l
  | [], _, l => by
      simpa using (keepIdx_of_all_true l _ (fun j => by simp)).symm
  | d :: ds, h, l => by
      rcases List.pairwise_cons.mp h with ⟨hd, hds⟩
      have hIH := foldl_eraseIdx_keepIdx ds hds (l.eraseIdx d)
      have hstep := keepIdx_eraseIdx l d (fun i => decide (i ∉ ds))
        (fun j hj => by
          have hnot : j ∉ ds := fun hmem => absurd (hd j hmem) (by omega)
          simpa using hnot)
      have hcg : keepIdx (fun i => decide (i ∉ d :: ds)) l
          = keepIdx (fun i => decide (i ≠ d) && decide (i ∉ ds)) l :=
        keepIdx_congr l _ _ (fun j => by
          simp [List.mem_cons, not_or])
      rw [List.foldl_cons, hIH, hcg, hstep]

/-- Descending sort of a duplicate-free selection is strictly
decreasing. -/
theorem sortDesc_pairwise_gt (sel : List Nat) (hnd : sel.Nodup) :
    ((List.insertionSort (· ≤ ·) sel).reverse).Pairwise (· > ·) := by
  have hs : (List.insertionSort (· ≤ ·) sel).Sorted (· ≤ ·) :=
    List.sorted_insertionSort _ sel
  have hnd2 : (List.insertionSort (· ≤ ·) sel).Nodup :=
    ((List.perm_insertionSort (· ≤ ·) sel).nodup_iff).mpr hnd
  have hlt : (List.insertionSort (· ≤ ·) sel).Sorted (· < ·) :=
    hs.lt_of_le hnd2
  rw [List.pairwise_reverse]
  exact hlt

/-! Claim theorems. -/

/-- Claim C1 (code bug): deleting the currently playing track does reset
`currentIndex` to `-1`, but `deleteSelectedTracks` never stops playback:
from a one-track playlist playing index 0 with `{0}` selected, the
resulting state still has `isPlaying = true`, contradicting the claimed
"stops playback (isPlaying becomes false)". -/
theorem c1_delete_playing_track_keeps_isPlaying :
    (deleteSelectedTracks c1State).currentIndex = -1 ∧
    (deleteSelectedTracks c1State).isPlaying = true := by decide

/-- Claim C2 (code bug): the spec invariant `isPlaying = true →
currentIndex ≠ -1` is violated right after `deleteSelectedTracks` deletes
the playing track: on `[A, B]` playing index 1 with `{1}` selected, the
result has `isPlaying = true` and `currentIndex = -1`. -/
theorem c2_invariant_fails_after_delete :
    ¬ stateInvariant (deleteSelectedTracks c2State) := by decide

/-- Claim C7: `deleteSelectedTracks` removes exactly the tracks whose
index is in the (duplicate-free) selection — the descending splice loop
equals an index filter — and clears the selection; in particular
selection `{0, 2}` on `[A, B, C]` leaves `[B]` and an empty selection. -/
theorem c7_deleteSelected_is_index_filter (s : AppState)
    (hnd : s.selected.Nodup) :
    (deleteSelectedTracks s).playlist
        = keepIdx (fun i => decide (i ∉ s.selected)) s.playlist ∧
    (deleteSelectedTracks s).selected = [] ∧
    (deleteSelectedTracks c7State).playlist = [trackB] ∧
    (deleteSelectedTracks c7State).selected = [] := by
  refine ⟨?_, ?_, by decide, by decide⟩
  · by_cases hc : s.selected.length = 0
    · have hsel : s.selected = [] := List.length_eq_zero.mp hc
      have : deleteSelectedTracks s = s := by
        unfold deleteSelectedTracks
        rw [if_pos hc]
      rw [this, hsel]
      exact (keepIdx_of_all_true _ _ (fun j => by simp)).symm
    · have hred : (deleteSelectedTracks s).playlist
          = ((List.insertionSort (· ≤ ·) s.selected).reverse).foldl
              (fun l idx => l.eraseIdx idx) s.playlist := by
        unfold deleteSelectedTracks
        rw [if_neg hc]
      rw [hred,
        foldl_eraseIdx_keepIdx _ (sortDesc_pairwise_gt s.selected hnd)
          s.playlist]
      exact keepIdx_congr _ _ _ (fun j => by
        rw [decide_eq_decide]
        simp [List.mem_reverse,
          (List.perm_insertionSort (· ≤ ·) s.selected).mem_iff])
  · by_cases hc : s.selected.length = 0
    · have hsel : s.selected = [] := List.length_eq_zero.mp hc
      have : deleteSelectedTracks s = s := by
        unfold deleteSelectedTracks
        rw [if_pos hc]
      rw [this, hsel]
    · have : (deleteSelectedTracks s).selected = [] := by
        unfold deleteSelectedTracks
        rw [if_neg hc]
      exact this

/-- Claim C7, witness: the general theorem applied at the `[A, B, C]`
state with selection `{0, 2}`. -/
theorem c7_deleteSelected_is_index_filter_witness :
    (deleteSelectedTracks c7State).playlist
        = keepIdx (fun i => decide (i ∉ c7State.selected))
            c7State.playlist ∧
    (deleteSelectedTracks c7State).selected = [] := by
  have h := c7_deleteSelected_is_index_filter c7State (by decide)
  exact ⟨h.1, h.2.1⟩

/-- Claim C8: `AudioEngine.setVolume` clamps every input into `[0, 1]`
and is idempotent; in particular `setVolume 1.5 = 1` and
`setVolume (-0.2) = 0`. -/
theorem c8_setVolume_clamped_idempotent :
    (∀ v : ℚ, 0 ≤ setVolume v ∧ setVolume v ≤ 1 ∧
        setVolume (setVolume v) = setVolume v) ∧
    setVolume (3 / 2) = 1 ∧ setVolume (-(1 / 5)) = 0 := by
  refine ⟨fun v => ?_, by norm_num [setVolume], by norm_num [setVolume]⟩
  have h0 : 0 ≤ setVolume v := le_max_left 0 _
  have h1 : setVolume v ≤ 1 := max_le (by norm_num) (min_le_left 1 v)
  refine ⟨h0, h1, ?_⟩
  have hdef : setVolume (setVolume v) = max 0 (min 1 (setVolume v)) := rfl
  rw [hdef, min_eq_right h1, max_eq_right h0]

/-- Claim C9 (code bug): there is no staleness guard in `playTrack`; with
playlist `[A, B]`, if `playTrack 0`'s load is still pending when
`playTrack 1` runs to completion, the stale completion loads track A's
object URL into the engine, so the final state has `currentIndex = 1`
(track `b.mp3`) but the engine playing `a.mp3`. -/
theorem c9_stale_load_clobbers_source :
    c9StaleRun.currentIndex = 1 ∧
    c9StaleRun.engineLoaded = some ⟨1, "a.mp3"⟩ ∧
    (trackAt c9StaleRun 1).path = "b.mp3" ∧
    c9StaleRun.isPlaying = true := by decide

/-- Claim C10: the ArrowLeft/ArrowRight handlers set the displayed
`currentTime` to exactly `t - 5` / `t + 5` with no clamping, so
ArrowLeft with `t < 5` makes the displayed time negative. -/
theorem c10_arrow_seek_unclamped (s : AppState) :
    (arrowLeftSeek s).1.currentTime = s.currentTime - 5 ∧
    (arrowRightSeek s).1.currentTime = s.currentTime + 5 ∧
    (s.currentTime < 5 → (arrowLeftSeek s).1.currentTime < 0) := by
  refine ⟨rfl, rfl, fun h => ?_⟩
  show s.currentTime - 5 < 0
  linarith

/-- Claim C10, witness: at `currentTime = 0` the ArrowLeft handler
displays `-5`. -/
theorem c10_arrow_seek_unclamped_witness :
    (arrowLeftSeek c10State).1.currentTime = c10State.currentTime - 5 ∧
    (arrowRightSeek c10State).1.currentTime = c10State.currentTime + 5 ∧
    (arrowLeftSeek c10State).1.currentTime < 0 := by
  have h := c10_arrow_seek_unclamped c10State
  exact ⟨h.1, h.2.1, h.2.2 (by decide)⟩

/-- Claim C3, counterexample: with an active handle (url 7) and a failing
file read, `playTrack` leaves the previous handle revoked rather than
"valid and untouched"; and in a successful run the revoke of url 7 occurs
in the trace strictly before any create, refuting "released only after
the replacement handle has been created, never before". -/
theorem c3_claim_false_at_input :
    (playTrack 0 false true c3State).1.currentObjectUrl
        ≠ some ⟨7, "old.mp3"⟩ ∧
    Event.revokeUrl 7
        ∈ (playTrack 0 true true c3State).2.takeWhile
            (fun e => !(isCreate e)) := by decide

/-- Claim C3, amended: for any track change entered with an active
handle, `playTrack` revokes the previous handle before the new one is
created (the revoke event precedes every create event in the trace), and
on a read failure the previous handle has already been revoked (the
stored handle is `none`), so it does not remain valid. -/
theorem c3_revoke_precedes_create (s : AppState) (i : Int)
    (readOk playOk : Bool) (u : Url) (hi0 : 0 ≤ i)
    (hil : i < (s.playlist.length : Int))
    (hval : isValidAudioFile (trackAt s i).path = true)
    (hurl : s.currentObjectUrl = some u) :
    Event.revokeUrl u.id
        ∈ (playTrack i readOk playOk s).2.takeWhile
            (fun e => !(isCreate e)) ∧
    (readOk = false →
        (playTrack i readOk playOk s).1.currentObjectUrl = none) := by
  have hnb : ¬(i < 0 ∨ (s.playlist.length : Int) ≤ i) := by omega
  have hsync : playTrackSync i s
      = ({ s with currentIndex := i, currentObjectUrl := none },
         some ⟨i, (trackAt s i).path⟩,
         [Event.setIndex i, Event.revokeUrl u.id]) := by
    simp [playTrackSync, hnb, hval, hurl]
  cases readOk with
  | true =>
      cases playOk with
      | true =>
          refine ⟨?_, fun hfalse => by cases hfalse⟩
          simp [playTrack, hsync, playTrackComplete, isCreate]
      | false =>
          refine ⟨?_, fun hfalse => by cases hfalse⟩
          simp [playTrack, hsync, playTrackComplete, isCreate]
  | false =>
      constructor
      · simp [playTrack, hsync, playTrackComplete, isCreate]
      · intro _
        simp [playTrack, hsync, playTrackComplete]

/-- Claim C3, witness: the amended theorem applied at a state holding
url 7 with a failing read. -/
theorem c3_revoke_precedes_create_witness :
    Event.revokeUrl 7
        ∈ (playTrack 0 false true c3State).2.takeWhile
            (fun e => !(isCreate e)) ∧
    (playTrack 0 false true c3State).1.currentObjectUrl = none := by
  have h := c3_revoke_precedes_create c3State 0 false true ⟨7, "old.mp3"⟩
    (by decide) (by decide) (by decide) (by decide)
  exact ⟨h.1, h.2 rfl⟩

/-- Claim C4, counterexample: an out-of-bounds `playTrack` call returns
silently — no "Invalid audio file type" error message and an empty
effect trace — contradicting the claimed error transition for
out-of-bounds indices. -/
theorem c4_out_of_bounds_is_silent :
    (playTrack 5 true true c4OobState).1.errorMessage
        ≠ some "Invalid audio file type" ∧
    (playTrack 5 true true c4OobState).2 = [] := by decide

/-- Claim C4, amended: an out-of-bounds index makes `playTrack` a silent
no-op (state unchanged, no events); a valid index whose track has an
unsupported extension sets only the error message "Invalid audio file
type" with a 3-second auto-clear, leaving `currentIndex` and the playback
state unchanged and emitting no filesystem read. -/
theorem c4_invalid_playTrack_behavior (s : AppState) (i : Int)
    (readOk playOk : Bool) :
    ((i < 0 ∨ (s.playlist.length : Int) ≤ i) →
        playTrack i readOk playOk s = (s, [])) ∧
    (0 ≤ i → i < (s.playlist.length : Int) →
        isValidAudioFile (trackAt s i).path = false →
        playTrack i readOk playOk s
          = ({ s with errorMessage := some "Invalid audio file type" },
             [Event.setError (some "Invalid audio file type"),
              Event.scheduleClearError 3000])) := by
  constructor
  · intro hoob
    simp [playTrack, playTrackSync, hoob]
  · intro h0 hlen hval
    have hnb : ¬(i < 0 ∨ (s.playlist.length : Int) ≤ i) := by omega
    simp [playTrack, playTrackSync, hnb, hval]

/-- Claim C4, witness: the amended theorem applied to an out-of-bounds
index and to a `.txt` track at a valid index. -/
theorem c4_invalid_playTrack_behavior_witness :
    playTrack 5 true true c4OobState = (c4OobState, []) ∧
    playTrack 0 true true c4BadExtState
      = ({ c4BadExtState with
            errorMessage := some "Invalid audio file type" },
         [Event.setError (some "Invalid audio file type"),
          Event.scheduleClearError 3000]) :=
  ⟨(c4_invalid_playTrack_behavior c4OobState 5 true true).1 (by decide),
   (c4_invalid_playTrack_behavior c4BadExtState 0 true true).2
     (by decide) (by decide) (by decide)⟩

/-- Claim C5: for a valid index with a supported extension, the
synchronous prefix of `playTrack` already has `currentIndex = index`
(before the asynchronous continuation runs), and in the full trace the
`setIndex` event precedes the filesystem read. -/
theorem c5_sync_sets_currentIndex (s : AppState) (i : Int)
    (readOk playOk : Bool) (hi0 : 0 ≤ i)
    (hil : i < (s.playlist.length : Int))
    (hval : isValidAudioFile (trackAt s i).path = true) :
    (playTrackSync i s).1.currentIndex = i ∧
    Event.setIndex i
        ∈ (playTrack i readOk playOk s).2.takeWhile
            (fun e => !(isFsRead e)) := by
  have hnb : ¬(i < 0 ∨ (s.playlist.length : Int) ≤ i) := by omega
  cases hurl : s.currentObjectUrl with
  | some u =>
      have hsync : playTrackSync i s
          = ({ s with currentIndex := i, currentObjectUrl := none },
             some ⟨i, (trackAt s i).path⟩,
             [Event.setIndex i, Event.revokeUrl u.id]) := by
        simp [playTrackSync, hnb, hval, hurl]
      constructor
      · rw [hsync]
      · cases readOk <;> cases playOk <;>
          simp [playTrack, hsync, playTrackComplete, isFsRead]
  | none =>
      have hsync : playTrackSync i s
          = ({ s with currentIndex := i },
             some ⟨i, (trackAt s i).path⟩, [Event.setIndex i]) := by
        simp [playTrackSync, hnb, hval, hurl]
      constructor
      · rw [hsync]
      · cases readOk <;> cases playOk <;>
          simp [playTrack, hsync, playTrackComplete, isFsRead]

/-- Claim C5, witness: `playTrack 1` on an idle two-track state. -/
theorem c5_sync_sets_currentIndex_witness :
    (playTrackSync 1 c5State).1.currentIndex = 1 ∧
    Event.setIndex 1
        ∈ (playTrack 1 true true c5State).2.takeWhile
            (fun e => !(isFsRead e)) :=
  c5_sync_sets_currentIndex c5State 1 true true (by decide) (by decide)
    (by decide)

/-- Claim C6: the "ended" handler, evaluated on the state at delivery
time: an out-of-bounds `currentIndex` just stops playback; when
`currentIndex + 1` exists it advances via `playTrack (currentIndex + 1)`;
when the current track was last it stops with `currentIndex` unchanged
and `isPlaying = false` — no wraparound. -/
theorem c6_onEnded_cases (s : AppState) (readOk playOk : Bool) :
    ((s.currentIndex < 0 ∨ (s.playlist.length : Int) ≤ s.currentIndex) →
        onEnded readOk playOk s
          = ({ s with isPlaying := false }, [Event.setPlaying false])) ∧
    (0 ≤ s.currentIndex →
        s.currentIndex + 1 < (s.playlist.length : Int) →
        onEnded readOk playOk s
          = playTrack (s.currentIndex + 1) readOk playOk s) ∧
    (0 ≤ s.currentIndex →
        s.currentIndex + 1 = (s.playlist.length : Int) →
        onEnded readOk playOk s
          = ({ s with isPlaying := false }, [Event.setPlaying false]) ∧
        (onEnded readOk playOk s).1.currentIndex = s.currentIndex) := by
  refine ⟨fun hoob => ?_, fun h0 hnext => ?_, fun h0 hlast => ?_⟩
  · simp [onEnded, hoob]
  · have hnb : ¬(s.currentIndex < 0 ∨
        (s.playlist.length : Int) ≤ s.currentIndex) := by omega
    simp [onEnded, hnb, hnext]
  · have hnb : ¬(s.currentIndex < 0 ∨
        (s.playlist.length : Int) ≤ s.currentIndex) := by omega
    have hge : ¬(s.currentIndex + 1 < (s.playlist.length : Int)) := by omega
    constructor
    · simp [onEnded, hnb, hge]
    · simp [onEnded, hnb, hge]

/-- Claim C6, witness: ended on `[A, B, C]` playing index 0 advances to
index 1; playing the last index 2 stops with the index unchanged; an
out-of-bounds index 5 just stops. -/
theorem c6_onEnded_cases_witness :
    onEnded true true c6OobState
      = ({ c6OobState with isPlaying := false },
         [Event.setPlaying false]) ∧
    onEnded true true c6AdvanceState
      = playTrack 1 true true c6AdvanceState ∧
    onEnded true true c6LastState
      = ({ c6LastState with isPlaying := false },
         [Event.setPlaying false]) ∧
    (onEnded true true c6LastState).1.currentIndex = 2 := by
  have hoob := (c6_onEnded_cases c6OobState true true).1 (by decide)
  have hadv := (c6_onEnded_cases c6AdvanceState true true).2.1
    (by decide) (by decide)
  have hlast := (c6_onEnded_cases c6LastState true true).2.2
    (by decide) (by decide)
  exact ⟨hoob, hadv, hlast.1, hlast.2⟩

end MinPlayer
